import Mathlib

/-!
Verification development for the myPyHaptics repository.

The repository has two entry points:
  * `src/publish.py`  — a publisher that sends BPM / run-control payloads;
  * `src/subscribe.py` — a subscriber hosting `HapticsController`, a
    command-serialized state machine that schedules a synchronized start,
    drives a beat loop, and manages a persisted phase-shift calibration.

This file gives a shallow embedding of the parts of that code relevant to
the verified properties.  Python integers become `ℤ`/`ℕ`; Python strings
become `List Char`; the controller's mutable attributes become a `CState`
record; each `async` method becomes a function from the pre-state (plus the
clock readings the method performs) to the post-state together with the list
of external calls (actuator / config-store) the method performs.  The float
arithmetic of the beat loop (seconds as Python floats) is modelled over `ℚ`.
-/

namespace MyPyHaptics

/-! ## Python string model -/

/-- Code points CPython's `str.isspace()` accepts (the set `str.strip()` and
`int()` strip): U+0009–U+000D, U+001C–U+001F, space, U+0085, U+00A0, U+1680,
U+2000–U+200A, U+2028, U+2029, U+202F, U+205F, U+3000. -/
def pySpaceCodes : List ℕ :=
  [9, 10, 11, 12, 13, 28, 29, 30, 31, 32, 133, 160, 5760,
   8192, 8193, 8194, 8195, 8196, 8197, 8198, 8199, 8200, 8201, 8202,
   8232, 8233, 8239, 8287, 12288]

/-- Model of Python's whitespace test (`str.isspace()` on one character). -/
def isSpaceChar (c : Char) : Bool := pySpaceCodes.contains c.toNat

/-- Drop leading whitespace characters. -/
def dropLead : List Char → List Char
  | [] => []
  | c :: cs => if isSpaceChar c then dropLead cs else c :: cs

/-- Model of Python `str.strip()`: drop leading and trailing whitespace. -/
def pyStrip (l : List Char) : List Char :=
  (dropLead (dropLead l).reverse).reverse

/-- Lowercase one character (ASCII range, which covers every character the
subscriber's stop keywords can match). -/
def lowerChar (c : Char) : Char :=
  if 'A' ≤ c ∧ c ≤ 'Z' then Char.ofNat (c.toNat + 32) else c

/-- Model of Python `str.lower()`. -/
def pyLower (l : List Char) : List Char := l.map lowerChar

/-! ## Decimal integer printing and parsing

`natToDec`/`intToDec` model Python `str()` on an integer (the serializer used
by `_publish_value` in `publish.py` and by the f-string interpolations in
`subscribe.py`).  `parseIntDec` models Python `int()` applied to an already
stripped string: an optional single sign followed by a nonempty run of
Unicode decimal digits with single underscores allowed between digits
(CPython's grammar `digit (["_"] digit)*`).  A Unicode decimal digit is any
character of category Nd; these occur in contiguous runs of ten (values 0–9)
whose starting code points are listed in `ndRunStarts`. -/

/-- Starting code points of the runs of ten consecutive Unicode decimal
digits (category Nd), 0x30 for ASCII first; every character CPython's
`int()` treats as a digit lies in `[s, s+9]` for one of these `s`, with
value `code − s`. -/
def ndRunStarts : List ℕ :=
  [48, 1632, 1776, 1984, 2406, 2534, 2662, 2790, 2918, 3046, 3174, 3302,
   3430, 3558, 3664, 3792, 3872, 4160, 4240, 6112, 6160, 6470, 6608, 6784,
   6800, 6992, 7088, 7232, 7248, 42528, 43216, 43264, 43472, 43504, 43600,
   44016, 65296, 66720, 68912, 69734, 69872, 69942, 70096, 70384, 70736,
   70864, 71248, 71360, 71472, 71904, 72016, 72784, 73040, 73120, 92768,
   92864, 93008, 120782, 120792, 120802, 120812, 120822, 123200, 123632,
   125264, 130032]

/-- Character for decimal digit `d` (meaningful for `d < 10`). -/
def digitChar (d : ℕ) : Char := Char.ofNat (48 + d)

/-- Decimal value of a character under Python `int()`: its offset inside the
Nd run containing it, if any. -/
def digitVal (c : Char) : Option ℕ :=
  match ndRunStarts.find? (fun s => decide (s ≤ c.toNat ∧ c.toNat ≤ s + 9)) with
  | some s => some (c.toNat - s)
  | none => none

/-- Decimal representation of a natural number, most significant digit
first; models Python `str()` on a nonnegative int. -/
def natToDec (n : ℕ) : List Char :=
  if n = 0 then ['0'] else ((Nat.digits 10 n).reverse).map digitChar

/-- Decimal representation of an integer; models Python `str()` on an int. -/
def intToDec (v : ℤ) : List Char :=
  if v < 0 then '-' :: natToDec v.natAbs else natToDec v.toNat

/-- Accumulating parse of the remainder of a digit run: after a first digit,
each further position is a digit or a single underscore followed by a digit;
consumes the whole list or fails. -/
def parseDigitsU (acc : ℕ) : List Char → Option ℕ
  | [] => some acc
  | c :: cs =>
    if c = '_' then
      match cs with
      | [] => none
      | c2 :: cs2 =>
        match digitVal c2 with
        | some d => parseDigitsU (acc * 10 + d) cs2
        | none => none
    else
      match digitVal c with
      | some d => parseDigitsU (acc * 10 + d) cs
      | none => none

/-- Parse a digit run in CPython `int()` grammar: a first digit, then digits
with single underscores allowed between digits. -/
def parseNatDec (l : List Char) : Option ℕ :=
  match l with
  | [] => none
  | c :: cs =>
    match digitVal c with
    | some d => parseDigitsU d cs
    | none => none

/-- Model of Python `int()` on a stripped string: optional sign, then a
nonempty digit run. -/
def parseIntDec (l : List Char) : Option ℤ :=
  match l with
  | [] => none
  | c :: cs =>
    if c = '-' then (parseNatDec cs).map (fun n => -(n : ℤ))
    else if c = '+' then (parseNatDec cs).map (fun n => (n : ℤ))
    else (parseNatDec l).map (fun n => (n : ℤ))

/-! ## Run payload parsing (`_parse_run_payload` in `subscribe.py`) -/

/-- Constant `MIN_EPOCH_MS = 10**11` from `subscribe.py`. -/
def MIN_EPOCH_MS : ℤ := 10 ^ 11

/-- Constant `STALE_START_THRESHOLD_MS = 5000` from `subscribe.py`. -/
def STALE_START_THRESHOLD_MS : ℤ := 5000

/-- Result of parsing a run-topic payload: the tuple returned by
`_parse_run_payload` (either a stop command or a start with its epoch-ms). -/
inductive RunAction where
  | stop : RunAction
  | start (ms : ℤ) : RunAction
deriving DecidableEq

/-- Stop keywords recognized by `_parse_run_payload`. -/
def stopTokens : List (List Char) :=
  ["0".data, "false".data, "off".data, "stop".data, "no".data]

/-- Embedding of `_parse_run_payload` (subscribe.py lines 212–226): strip and
lowercase; a stop keyword yields Stop; otherwise the stripped payload is
parsed as an integer (failure raises "invalid run payload"), and an integer
below `MIN_EPOCH_MS` raises "invalid start timestamp". -/
def parseRunPayload (payload : List Char) : Except String RunAction :=
  let normalized := pyLower (pyStrip payload)
  if normalized ∈ stopTokens then Except.ok RunAction.stop
  else
    match parseIntDec (pyStrip payload) with
    | none => Except.error "invalid run payload"
    | some v =>
      if v < MIN_EPOCH_MS then
        Except.error "invalid start timestamp (expected epoch-ms)"
      else Except.ok (RunAction.start v)

/-! ## Publisher run payload (`_resolve_run_payload` in `publish.py`) -/

/-- Truncation toward zero, the behaviour of Python `int()` on a float;
delays are nonnegative in the publisher, where this equals the floor. -/
def pyTrunc (x : ℚ) : ℤ := if 0 ≤ x then ⌊x⌋ else ⌈x⌉

/-- Embedding of `_resolve_run_payload` (publish.py lines 301–308).  The
float seconds value `delay_sec` is modelled as an exact rational.  Python's
`now_ms // 1000` is floor division, hence `Int.fdiv`. -/
def resolveRunPayload (run : ℤ) (now_ms : ℤ) (delay_sec : Option ℚ) : ℤ :=
  if run = 0 then 0
  else
    match delay_sec with
    | none => now_ms
    | some d => (Int.fdiv now_ms 1000) * 1000 + pyTrunc (d * 1000)

/-- Written from the spec's words for the delayed-start payload: current
epoch time floored to the second plus the delay rounded to the nearest
millisecond ("payload = floor(now_epoch_ms / 1000) × 1000 + round(X × 1000)").
Used only to compare against `resolveRunPayload`. -/
def resolveRunPayloadSpec (run : ℤ) (now_ms : ℤ) (delay_sec : Option ℚ) : ℤ :=
  if run = 0 then 0
  else
    match delay_sec with
    | none => now_ms
    | some d => (Int.fdiv now_ms 1000) * 1000 + round (d * 1000)

/-! ## Controller state (`HapticsController` in `subscribe.py`)

One record collects the controller attributes set in `__init__` that the
verified properties mention.  Task handles are abstracted to their
observable content: `play_task` is `true` iff a play-loop task exists and is
not done; `scheduled_start_task` carries the arguments captured by an active
`_run_scheduled_start` task, or `none`.  The SQLite config store is folded
in as `store_phase_shift` (the value stored under key `phase_shift_ms`,
`none` when the row is absent). -/

/-- Constant `PHASE_SHIFT_MIN_MS = -2000` from `subscribe.py`. -/
def PHASE_SHIFT_MIN_MS : ℤ := -2000

/-- Constant `PHASE_SHIFT_MAX_MS = 2000` from `subscribe.py`. -/
def PHASE_SHIFT_MAX_MS : ℤ := 2000

/-- Constant `MOTOR_LEN = 32` from `subscribe.py`. -/
def MOTOR_LEN : ℕ := 32

/-- Controller state. -/
structure CState where
  current_bpm : ℤ
  current_run : ℤ
  current_run_state : String
  phase_shift_ms : ℤ
  pending_phase_shift_ms : ℤ
  session_phase_shift_delta_ms : ℤ
  last_payload_target_ms : Option ℤ
  last_target_ms : Option ℤ
  last_actual_ms : Option ℤ
  last_event : List Char
  initialized : Bool
  play_task : Bool
  scheduled_start_task : Option (ℤ × ℤ × ℕ)
  current_schedule_id : ℕ
  store_phase_shift : Option ℤ
deriving DecidableEq

/-- External calls a controller method can perform: actuator calls
(`registry_and_initialize`, `play_dot`, `stop_all`, `close`) and config-store
writes (`save_phase_shift_ms`). -/
inductive Eff where
  | actInit : Eff
  | play (offset duration : ℤ) (values : List ℤ) (repeatFlag : ℤ) : Eff
  | stopAll : Eff
  | actClose : Eff
  | save (v : ℤ) : Eff
deriving DecidableEq

/-- Actuator calls among a method's external calls (config-store writes are
not actuator calls). -/
def actuatorCalls (l : List Eff) : List Eff :=
  l.filter fun e =>
    match e with
    | Eff.save _ => false
    | _ => true

/-! Status / event messages, exactly the strings `_set_last_event` receives
(f-string braces replaced by the interpolated decimal text). -/

/-- Event set by the stale branch of `_schedule_start_async`. -/
def staleMsg (payload_target_ms lag_ms : ℤ) : List Char :=
  "ignored stale start timestamp payload_target_ms=".data ++
    intToDec payload_target_ms ++ " lag_ms=".data ++ intToDec lag_ms

/-- Event set by the success branch of `_schedule_start_async`. -/
def scheduledMsg (target_ms delay_ms shift_ms : ℤ) : List Char :=
  "scheduled start target_ms=".data ++ intToDec target_ms ++
    " delay_ms=".data ++ intToDec delay_ms ++
    " phase_shift_ms=".data ++ intToDec shift_ms

/-- Event set by `_run_scheduled_start` when the timer fires validly. -/
def reachedMsg (target_ms actual_ms : ℤ) : List Char :=
  "scheduled start reached target_ms=".data ++ intToDec target_ms ++
    " actual_ms=".data ++ intToDec actual_ms

/-- Event set by `_start_play_loop` when it spawns the loop. -/
def playStartedMsg : List Char := "play loop started".data

/-- Event set by `_stop_async`. -/
def stoppedMsg : List Char := "updated run=0".data

/-- Event set by `_commit_session_phase_shift` on a real commit. -/
def committedMsg (v : ℤ) : List Char :=
  "committed phase_shift_ms=".data ++ intToDec v

/-- Event set by the running branch of `_set_phase_shift_async`. -/
def queuedShiftMsg (requested delta : ℤ) : List Char :=
  "queued phase shift update requested_ms=".data ++ intToDec requested ++
    " delta_ms=".data ++ intToDec delta

/-- Event set by the non-running branch of `_set_phase_shift_async`. -/
def updatedShiftMsg (v : ℤ) : List Char :=
  "updated phase_shift_ms=".data ++ intToDec v

/-- Event set by the beat loop when it consumes a pending shift. -/
def appliedShiftMsg (shift_ms : ℤ) : List Char :=
  "applied pending phase shift shift_ms=".data ++ intToDec shift_ms

/-- Initial controller state built by `__init__` from the loaded phase shift
and the current store contents. -/
def initState (loaded_phase : ℤ) (store : Option ℤ) : CState where
  current_bpm := 120
  current_run := 0
  current_run_state := "stopped"
  phase_shift_ms := loaded_phase
  pending_phase_shift_ms := 0
  session_phase_shift_delta_ms := 0
  last_payload_target_ms := none
  last_target_ms := none
  last_actual_ms := none
  last_event := "loaded phase_shift_ms=".data ++ intToDec loaded_phase
  initialized := false
  play_task := false
  scheduled_start_task := none
  current_schedule_id := 0
  store_phase_shift := store

/-! ## Controller helper methods -/

/-- Embedding of `_get_effective_phase_shift_ms`. -/
def getEffectivePhaseShiftMs (s : CState) : ℤ :=
  s.phase_shift_ms + s.session_phase_shift_delta_ms

/-- Embedding of `_compute_target_ms`. -/
def computeTargetMs (s : CState) (payload_target_ms : ℤ) : ℤ :=
  payload_target_ms - getEffectivePhaseShiftMs s

/-- Embedding of `_consume_pending_phase_shift_ms`: the read-and-clear of
`pending_phase_shift_ms` (returns the value and the updated state). -/
def consumePendingPhaseShiftMs (s : CState) : ℤ × CState :=
  (s.pending_phase_shift_ms, { s with pending_phase_shift_ms := 0 })

/-- Embedding of `_commit_session_phase_shift`: with a zero session delta it
only clears the pending delta; otherwise it folds the session delta into
`phase_shift_ms`, clears both deltas, persists the committed value and
records the commit event. -/
def commitSessionPhaseShift (s : CState) : CState × List Eff :=
  if s.session_phase_shift_delta_ms = 0 then
    ({ s with pending_phase_shift_ms := 0 }, [])
  else
    let committed := s.phase_shift_ms + s.session_phase_shift_delta_ms
    ({ s with
        phase_shift_ms := committed
        session_phase_shift_delta_ms := 0
        pending_phase_shift_ms := 0
        store_phase_shift := some committed
        last_event := committedMsg committed },
      [Eff.save committed])

/-- Embedding of `_initialize`: a no-op when already initialized, otherwise
one `registry_and_initialize` call and the flag set. -/
def initActuator (s : CState) : CState × List Eff :=
  if s.initialized then (s, [])
  else ({ s with initialized := true }, [Eff.actInit])

/-- Embedding of `_start_play_loop`: spawn the loop, mark running and record
the event — unless an undone play task already exists, in which case nothing
changes ("play loop already running" is only printed). -/
def startPlayLoop (s : CState) : CState :=
  if s.play_task then s
  else { s with
          play_task := true
          current_run_state := "running"
          last_event := playStartedMsg }

/-! ## Controller command methods -/

/-- Embedding of `_schedule_start_async` (subscribe.py lines 494–532).
`now_ms` is the wall-clock reading `int(time.time() * 1000)` the method
performs.  The stale branch changes `last_event` only.  The valid branch sets
the run flag, increments the schedule id, cancels any existing scheduled
start task, records the schedule times, marks the state scheduled, spawns a
new `_run_scheduled_start` task capturing `(payload, target, schedule_id)`,
and records the scheduled event.  It makes no external calls and does not
touch the play task. -/
def scheduleStartAsync (payload_target_ms now_ms : ℤ) (s : CState) : CState :=
  let target_ms := computeTargetMs s payload_target_ms
  let lag_ms := now_ms - target_ms
  if lag_ms > STALE_START_THRESHOLD_MS then
    { s with last_event := staleMsg payload_target_ms lag_ms }
  else
    let s1 := { s with
                  current_run := 1
                  current_schedule_id := s.current_schedule_id + 1 }
    let schedule_id := s1.current_schedule_id
    let s2 := { s1 with scheduled_start_task := none }
    let s3 := { s2 with
                  last_payload_target_ms := some payload_target_ms
                  last_target_ms := some target_ms
                  last_actual_ms := none
                  current_run_state := "scheduled"
                  scheduled_start_task := some (payload_target_ms, target_ms, schedule_id) }
    let delay_ms := max 0 (target_ms - now_ms)
    { s3 with last_event := scheduledMsg target_ms delay_ms (getEffectivePhaseShiftMs s3) }

/-- Embedding of `_stop_async` (subscribe.py lines 479–492): clear the run
flag, bump the schedule id, mark stopped, cancel both tasks, call `stop_all`
only when initialized, then commit the session phase shift. -/
def stopAsync (s : CState) : CState × List Eff :=
  let s1 := { s with
                current_run := 0
                current_schedule_id := s.current_schedule_id + 1
                current_run_state := "stopped"
                last_event := stoppedMsg
                scheduled_start_task := none
                play_task := false }
  let stopEffs := if s1.initialized then [Eff.stopAll] else []
  ((commitSessionPhaseShift s1).1, stopEffs ++ (commitSessionPhaseShift s1).2)

/-- Embedding of `_close_async` (subscribe.py lines 534–548): stop semantics
(without the "updated run=0" event), then `close` and the flag cleared, both
only when initialized. -/
def closeAsync (s : CState) : CState × List Eff :=
  let s1 := { s with
                current_run := 0
                current_schedule_id := s.current_schedule_id + 1
                current_run_state := "stopped"
                scheduled_start_task := none
                play_task := false }
  let stopEffs := if s1.initialized then [Eff.stopAll] else []
  let s2 := (commitSessionPhaseShift s1).1
  let commitEffs := (commitSessionPhaseShift s1).2
  if s2.initialized then
    ({ s2 with initialized := false }, stopEffs ++ commitEffs ++ [Eff.actClose])
  else (s2, stopEffs ++ commitEffs)

/-- Embedding of `_set_phase_shift_async` (subscribe.py lines 432–477).
Out-of-range values raise `ValueError`.  While a play task is active, the
delta to the requested effective shift is staged onto the pending and
session deltas.  Otherwise the shift is set directly, deltas cleared, the
value persisted, and — when a scheduled start task is active with a recorded
payload target — the start is rescheduled via `_schedule_start_async`
(`now_ms` is the wall-clock reading that nested call performs). -/
def setPhaseShiftAsync (requested now_ms : ℤ) (s : CState) :
    Except String (CState × List Eff) :=
  if requested < PHASE_SHIFT_MIN_MS ∨ requested > PHASE_SHIFT_MAX_MS then
    Except.error "phase_shift_ms must be in [-2000, 2000]"
  else
    let running := s.play_task
    let scheduled := s.scheduled_start_task.isSome
    if running then
      let effective := s.phase_shift_ms + s.session_phase_shift_delta_ms
      let delta_ms := requested - effective
      if delta_ms = 0 then Except.ok (s, [])
      else
        Except.ok
          ({ s with
              pending_phase_shift_ms := s.pending_phase_shift_ms + delta_ms
              session_phase_shift_delta_ms := s.session_phase_shift_delta_ms + delta_ms
              last_event := queuedShiftMsg requested delta_ms }, [])
    else
      let lpt := if scheduled then s.last_payload_target_ms else none
      let s1 := { s with
                    phase_shift_ms := requested
                    pending_phase_shift_ms := 0
                    session_phase_shift_delta_ms := 0
                    store_phase_shift := some requested
                    last_event := updatedShiftMsg requested }
      match lpt with
      | some p => Except.ok (scheduleStartAsync p now_ms s1, [Eff.save requested])
      | none => Except.ok (s1, [Eff.save requested])

/-- Embedding of `SubscriberControlUI._clamp_phase_shift` (subscribe.py
lines 702–707). -/
def clampPhaseShift (value : ℤ) : ℤ :=
  if value < PHASE_SHIFT_MIN_MS then PHASE_SHIFT_MIN_MS
  else if value > PHASE_SHIFT_MAX_MS then PHASE_SHIFT_MAX_MS
  else value

/-- Embedding of the submit path of `SubscriberControlUI._apply_phase_shift`:
the entered value is clamped before `set_phase_shift` is invoked. -/
def applyPhaseShift (entered now_ms : ℤ) (s : CState) :
    Except String (CState × List Eff) :=
  setPhaseShiftAsync (clampPhaseShift entered) now_ms s

/-- Embedding of the part of `_run_scheduled_start` (subscribe.py lines
385–423) that runs when the sleep completes (the wakeup): the initialization
task has finished (setting `initialized`); then a captured schedule id other
than the current one, or a cleared run flag, discards the start; otherwise
the schedule times and event are recorded and `_start_play_loop` runs.
`now_ms` is the wall-clock reading taken for `actual_ms`. -/
def runScheduledStartWake (payload_target_ms target_ms : ℤ) (schedule_id : ℕ)
    (now_ms : ℤ) (s : CState) : CState × List Eff :=
  let s1 := (initActuator s).1
  let initEffs := (initActuator s).2
  if schedule_id ≠ s1.current_schedule_id then (s1, initEffs)
  else if s1.current_run ≠ 1 then (s1, initEffs)
  else
    let s2 := { s1 with
                  last_payload_target_ms := some payload_target_ms
                  last_target_ms := some target_ms
                  last_actual_ms := some now_ms
                  last_event := reachedMsg target_ms now_ms }
    (startPlayLoop s2, initEffs)

/-! ## Beat loop (`_play_loop` in `subscribe.py`)

The loop body works in seconds on Python floats (`time.perf_counter`).  We
model the times as exact rationals.  One loop iteration is a function of the
pre-state, the current `next_tick`, and the monotonic reading `now` taken
after the play call. -/

/-- Termination measure for the catch-up `while` loop: an upper bound on the
number of remaining iterations. -/
def cuMeasure (interval now t : ℚ) : ℕ := (⌊(now - t) / interval⌋ + 1).toNat

theorem cuMeasure_decr {interval now t : ℚ} (hi : 0 < interval) (h : t ≤ now) :
    cuMeasure interval now (t + interval) < cuMeasure interval now t := by
  have hfl : ((now - (t + interval)) / interval : ℚ) = (now - t) / interval - 1 := by
    field_simp
    ring
  have hnn : (0 : ℤ) ≤ ⌊(now - t) / interval⌋ := by
    apply Int.floor_nonneg.mpr
    exact div_nonneg (by linarith) hi.le
  have hsub : ⌊((now - t) / interval - 1 : ℚ)⌋ = ⌊(now - t) / interval⌋ - 1 :=
    Int.floor_sub_one _
  simp only [cuMeasure, hfl, hsub]
  omega

/-- The catch-up loop `while next_tick <= now: next_tick += beat_interval`.
It terminates because the interval is positive whenever the loop runs in the
program (`bpm` is validated positive by `_set_bpm_async`); for a non-positive
interval — unreachable in the program — the model returns `t` unchanged. -/
def catchUp (interval now t : ℚ) : ℚ :=
  if hi : 0 < interval then
    if h : t ≤ now then catchUp interval now (t + interval) else t
  else t
termination_by cuMeasure interval now t
decreasing_by exact cuMeasure_decr hi h

/-- Embedding of one iteration of `_play_loop` (subscribe.py lines 330–352):
consume the pending shift and, when non-zero, pull `next_tick` back by that
many milliseconds and record the event; read the bpm; play once; advance
`next_tick` by the beat interval; when the advanced tick is not in the
future, catch up by whole intervals.  Returns the post-state, the new
`next_tick`, and the external calls. -/
def playLoopIter (s : CState) (next_tick now : ℚ) : CState × ℚ × List Eff :=
  let shift_ms := (consumePendingPhaseShiftMs s).1
  let s1 := (consumePendingPhaseShiftMs s).2
  let s2 := if shift_ms ≠ 0 then { s1 with last_event := appliedShiftMsg shift_ms } else s1
  let t1 := if shift_ms ≠ 0 then next_tick - (shift_ms : ℚ) / 1000 else next_tick
  let beat_interval := 60 / (s2.current_bpm : ℚ)
  let t2 := t1 + beat_interval
  let t3 := if t2 - now > 0 then t2 else catchUp beat_interval now t2
  (s2, t3, [Eff.play 0 100 (List.replicate MOTOR_LEN 20) (-1)])

/-! ## Substring containment

`listHas pat l` decides whether `pat` occurs contiguously inside `l`; it is
used to state "the last event contains the text ...". -/

/-- Whether `pat` is an initial segment of `l`. -/
def listLeads : List Char → List Char → Bool
  | [], _ => true
  | _ :: _, [] => false
  | p :: ps, c :: cs => p == c && listLeads ps cs

/-- Whether `pat` occurs contiguously inside `l`. -/
def listHas (pat : List Char) : List Char → Bool
  | [] => listLeads pat []
  | c :: cs => listLeads pat (c :: cs) || listHas pat cs

theorem listHas_nil_pat (l : List Char) : listHas [] l = true := by
  induction l with
  | nil => rfl
  | cons c cs ih => simp [listHas, listLeads, ih]

theorem listLeads_append {pat l : List Char} (r : List Char)
    (h : listLeads pat l = true) : listLeads pat (l ++ r) = true := by
  induction pat generalizing l with
  | nil => simp [listLeads]
  | cons p ps ih =>
    cases l with
    | nil => simp [listLeads] at h
    | cons c cs =>
      simp only [listLeads, Bool.and_eq_true] at h
      simp only [List.cons_append, listLeads, Bool.and_eq_true]
      exact ⟨h.1, ih h.2⟩

theorem listHas_append_left {pat l : List Char} (r : List Char)
    (h : listHas pat l = true) : listHas pat (l ++ r) = true := by
  induction l with
  | nil =>
    cases pat with
    | nil => simp [listHas_nil_pat]
    | cons p ps => simp [listHas, listLeads] at h
  | cons c cs ih =>
    simp only [listHas, Bool.or_eq_true] at h
    simp only [List.cons_append, listHas, Bool.or_eq_true]
    cases h with
    | inl h => exact Or.inl (listLeads_append r h)
    | inr h => exact Or.inr (ih h)

/-! ## Printing / parsing round trip -/

theorem digitChar_spec {d : ℕ} (hd : d < 10) :
    digitVal (digitChar d) = some d ∧ isSpaceChar (digitChar d) = false ∧
      lowerChar (digitChar d) = digitChar d ∧
      digitChar d ≠ '-' ∧ digitChar d ≠ '+' ∧ digitChar d ≠ '_' := by
  interval_cases d <;>
    exact ⟨by decide, by decide, by decide, by decide, by decide, by decide⟩

theorem parseDigitsU_cons_digit {acc : ℕ} {c : Char} {cs : List Char} {d : ℕ}
    (hne : c ≠ '_') (hv : digitVal c = some d) :
    parseDigitsU acc (c :: cs) = parseDigitsU (acc * 10 + d) cs := by
  rw [parseDigitsU.eq_def]
  simp only [if_neg hne, hv]

theorem parseDigitsU_map {ds : List ℕ} (h : ∀ d ∈ ds, d < 10) (acc : ℕ) :
    parseDigitsU acc (ds.map digitChar) =
      some (ds.foldl (fun a d => a * 10 + d) acc) := by
  induction ds generalizing acc with
  | nil => rfl
  | cons d ds ih =>
    have hd : d < 10 := h d (List.mem_cons_self d ds)
    have hrest : ∀ x ∈ ds, x < 10 := fun x hx => h x (List.mem_cons_of_mem d hx)
    rw [List.map_cons,
      parseDigitsU_cons_digit (digitChar_spec hd).2.2.2.2.2 (digitChar_spec hd).1,
      List.foldl_cons]
    exact ih hrest (acc * 10 + d)

theorem foldr_eq_ofDigits (L : List ℕ) :
    L.foldr (fun d a => a * 10 + d) 0 = Nat.ofDigits 10 L := by
  induction L with
  | nil => rfl
  | cons d L ih =>
    simp only [List.foldr_cons, ih, Nat.ofDigits_cons]
    ring

theorem parseNatDec_natToDec (n : ℕ) : parseNatDec (natToDec n) = some n := by
  by_cases hn : n = 0
  · subst hn; rfl
  · have hne : Nat.digits 10 n ≠ [] := Nat.digits_ne_nil_iff_ne_zero.mpr hn
    have hner : (Nat.digits 10 n).reverse ≠ [] := by simp [hne]
    obtain ⟨d, rest, hdr⟩ := List.exists_cons_of_ne_nil hner
    have hlt : ∀ x ∈ (Nat.digits 10 n).reverse, x < 10 := by
      intro x hx
      exact Nat.digits_lt_base (by norm_num) (List.mem_reverse.mp hx)
    have hd : d < 10 := hlt d (by rw [hdr]; exact List.mem_cons_self d rest)
    have hrest : ∀ x ∈ rest, x < 10 := fun x hx =>
      hlt x (by rw [hdr]; exact List.mem_cons_of_mem d hx)
    have hrepr : natToDec n = digitChar d :: rest.map digitChar := by
      unfold natToDec
      rw [if_neg hn, hdr, List.map_cons]
    have hfold : (Nat.digits 10 n).reverse.foldl (fun a x => a * 10 + x) 0 = n := by
      rw [List.foldl_reverse]
      simp only [foldr_eq_ofDigits, Nat.ofDigits_digits]
    rw [hdr, List.foldl_cons] at hfold
    rw [hrepr]
    simp only [parseNatDec, (digitChar_spec hd).1, parseDigitsU_map hrest]
    rw [show 0 * 10 + d = d from by omega] at hfold
    rw [hfold]

theorem natToDec_head (n : ℕ) :
    ∃ d cs, natToDec n = digitChar d :: cs ∧ d < 10 := by
  by_cases hn : n = 0
  · exact ⟨0, [], by subst hn; rfl, by norm_num⟩
  · have hne : (Nat.digits 10 n).reverse ≠ [] := by
      simp [Nat.digits_ne_nil_iff_ne_zero.mpr hn]
    obtain ⟨d, rest, hdr⟩ := List.exists_cons_of_ne_nil hne
    have hd : d < 10 := by
      have : d ∈ (Nat.digits 10 n).reverse := by rw [hdr]; exact List.mem_cons_self d rest
      exact Nat.digits_lt_base (by norm_num) (List.mem_reverse.mp this)
    refine ⟨d, rest.map digitChar, ?_, hd⟩
    unfold natToDec
    rw [if_neg hn, hdr, List.map_cons]

theorem parseIntDec_intToDec (v : ℤ) : parseIntDec (intToDec v) = some v := by
  by_cases hv : v < 0
  · have h1 : intToDec v = '-' :: natToDec v.natAbs := by
      unfold intToDec; rw [if_pos hv]
    rw [h1]
    simp [parseIntDec, parseNatDec_natToDec]
    rw [abs_of_neg hv]
    ring
  · obtain ⟨d, cs, hrepr, hd⟩ := natToDec_head v.toNat
    have hspec := digitChar_spec hd
    have h1 : intToDec v = digitChar d :: cs := by
      unfold intToDec; rw [if_neg hv, hrepr]
    rw [h1]
    simp only [parseIntDec]
    rw [if_neg hspec.2.2.2.1, if_neg hspec.2.2.2.2.1, ← hrepr, parseNatDec_natToDec]
    simp
    omega

/-! ## Stripping and lowercasing leave decimal representations unchanged -/

theorem natToDec_mem {n : ℕ} {c : Char} (h : c ∈ natToDec n) :
    ∃ d, d < 10 ∧ c = digitChar d := by
  by_cases hn : n = 0
  · subst hn
    have h0 : c = '0' := by simpa [natToDec] using h
    exact ⟨0, by norm_num, by rw [h0]; decide⟩
  · simp only [natToDec, hn, if_false, List.mem_map] at h
    obtain ⟨d, hd, hc⟩ := h
    exact ⟨d, Nat.digits_lt_base (by norm_num) (List.mem_reverse.mp hd), hc.symm⟩

theorem intToDec_chars {v : ℤ} {c : Char} (h : c ∈ intToDec v) :
    isSpaceChar c = false ∧ lowerChar c = c := by
  have hdig : ∀ m : ℕ, c ∈ natToDec m → isSpaceChar c = false ∧ lowerChar c = c := by
    intro m hm
    obtain ⟨d, hd, rfl⟩ := natToDec_mem hm
    exact ⟨(digitChar_spec hd).2.1, (digitChar_spec hd).2.2.1⟩
  by_cases hv : v < 0
  · simp only [intToDec, hv, if_true, List.mem_cons] at h
    cases h with
    | inl h => subst h; exact ⟨by decide, by decide⟩
    | inr h => exact hdig _ h
  · simp only [intToDec, hv, if_false] at h
    exact hdig _ h

theorem dropLead_eq_self {l : List Char} (h : ∀ c ∈ l, isSpaceChar c = false) :
    dropLead l = l := by
  cases l with
  | nil => rfl
  | cons c cs => simp [dropLead, h c (List.mem_cons_self c cs)]

theorem pyStrip_eq_self {l : List Char} (h : ∀ c ∈ l, isSpaceChar c = false) :
    pyStrip l = l := by
  have hrev : ∀ c ∈ l.reverse, isSpaceChar c = false := by
    intro c hc; exact h c (List.mem_reverse.mp hc)
  simp [pyStrip, dropLead_eq_self h, dropLead_eq_self hrev]

theorem pyLower_eq_self {l : List Char} (h : ∀ c ∈ l, lowerChar c = c) :
    pyLower l = l := by
  unfold pyLower
  rw [List.map_congr_left h]
  simp

theorem intToDec_normalized (v : ℤ) :
    pyLower (pyStrip (intToDec v)) = intToDec v := by
  rw [pyStrip_eq_self fun c hc => (intToDec_chars hc).1,
    pyLower_eq_self fun c hc => (intToDec_chars hc).2]

theorem intToDec_not_stop {v : ℤ} (hv : v ≠ 0) : intToDec v ∉ stopTokens := by
  intro hmem
  have hparse := parseIntDec_intToDec v
  have cases5 : intToDec v = "0".data ∨ intToDec v = "false".data ∨
      intToDec v = "off".data ∨ intToDec v = "stop".data ∨ intToDec v = "no".data := by
    simpa [stopTokens] using hmem
  rcases cases5 with h | h | h | h | h <;> rw [h] at hparse
  · rw [show parseIntDec "0".data = some 0 from by decide] at hparse
    exact hv (Option.some.inj hparse).symm
  · rw [show parseIntDec "false".data = none from by decide] at hparse
    exact Option.noConfusion hparse
  · rw [show parseIntDec "off".data = none from by decide] at hparse
    exact Option.noConfusion hparse
  · rw [show parseIntDec "stop".data = none from by decide] at hparse
    exact Option.noConfusion hparse
  · rw [show parseIntDec "no".data = none from by decide] at hparse
    exact Option.noConfusion hparse

/-! ## Catch-up loop facts -/

theorem catchUp_spec {interval : ℚ} (hi : 0 < interval) (now t : ℚ) :
    now < catchUp interval now t ∧
      ∃ k : ℕ, catchUp interval now t = t + k * interval := by
  suffices h : ∀ n t, cuMeasure interval now t = n →
      now < catchUp interval now t ∧
        ∃ k : ℕ, catchUp interval now t = t + k * interval from h _ t rfl
  intro n
  induction n using Nat.strong_induction_on with
  | _ n ih =>
    intro t hm
    by_cases h : t ≤ now
    · have hdec := cuMeasure_decr hi h
      rw [hm] at hdec
      have hstep : catchUp interval now t = catchUp interval now (t + interval) := by
        rw [catchUp, dif_pos hi, dif_pos h]
      obtain ⟨hgt, k, hk⟩ := ih _ hdec (t + interval) rfl
      refine ⟨by rwa [hstep], k + 1, ?_⟩
      rw [hstep, hk]
      push_cast
      ring
    · have hstep : catchUp interval now t = t := by
        rw [catchUp, dif_pos hi, dif_neg h]
      refine ⟨by rw [hstep]; exact lt_of_not_le h, 0, by rw [hstep]; ring⟩

/-! ## Concrete states used by counterexamples and witnesses -/

/-- A controller state that is running a play loop (as after a fired
scheduled start), with one staged session delta. -/
def exRunningState : CState :=
  { initState 0 none with
      current_run := 1
      current_run_state := "running"
      play_task := true
      initialized := true
      current_schedule_id := 3
      session_phase_shift_delta_ms := 150
      pending_phase_shift_ms := 0 }

/-! ## Claims -/

/-- Claim C3: a ScheduleStart whose lag `now − (payload − effective shift)`
exceeds 5000 ms is rejected with no state change — RunState, BPM, PhaseShift,
SessionDelta, PendingDelta, ScheduleId, last payload target and last target
keep their prior values — and the last event afterwards contains "stale". -/
theorem claim_C3 (s : CState) (payload_target_ms now_ms : ℤ)
    (hstale : now_ms - computeTargetMs s payload_target_ms > STALE_START_THRESHOLD_MS) :
    (scheduleStartAsync payload_target_ms now_ms s).current_run_state = s.current_run_state ∧
    (scheduleStartAsync payload_target_ms now_ms s).current_bpm = s.current_bpm ∧
    (scheduleStartAsync payload_target_ms now_ms s).phase_shift_ms = s.phase_shift_ms ∧
    (scheduleStartAsync payload_target_ms now_ms s).session_phase_shift_delta_ms =
      s.session_phase_shift_delta_ms ∧
    (scheduleStartAsync payload_target_ms now_ms s).pending_phase_shift_ms =
      s.pending_phase_shift_ms ∧
    (scheduleStartAsync payload_target_ms now_ms s).current_schedule_id =
      s.current_schedule_id ∧
    (scheduleStartAsync payload_target_ms now_ms s).last_payload_target_ms =
      s.last_payload_target_ms ∧
    (scheduleStartAsync payload_target_ms now_ms s).last_target_ms = s.last_target_ms ∧
    (scheduleStartAsync payload_target_ms now_ms s).current_run = s.current_run ∧
    (scheduleStartAsync payload_target_ms now_ms s).store_phase_shift = s.store_phase_shift ∧
    listHas "stale".data (scheduleStartAsync payload_target_ms now_ms s).last_event = true := by
  have h1 : scheduleStartAsync payload_target_ms now_ms s =
      { s with last_event :=
          staleMsg payload_target_ms (now_ms - computeTargetMs s payload_target_ms) } := by
    simp only [scheduleStartAsync, if_pos hstale]
  rw [h1]
  refine ⟨rfl, rfl, rfl, rfl, rfl, rfl, rfl, rfl, rfl, rfl, ?_⟩
  unfold staleMsg
  apply listHas_append_left
  apply listHas_append_left
  apply listHas_append_left
  decide

/-- Witness for C3 at a concrete stale start: payload 10^11 arriving 6000 ms
late on a freshly constructed controller. -/
theorem claim_C3_witness :
    (100000006000 : ℤ) - computeTargetMs (initState 0 none) 100000000000 >
        STALE_START_THRESHOLD_MS ∧
      listHas "stale".data
          (scheduleStartAsync 100000000000 100000006000 (initState 0 none)).last_event =
        true :=
  ⟨by decide, (claim_C3 (initState 0 none) 100000000000 100000006000 (by decide)).2.2.2.2.2.2.2.2.2.2⟩

/-- Claim C5: a non-stale ScheduleStart leaves RunState Scheduled (Running
can only appear later, when the timer fires) and records
`last_target_ms = payload − (PhaseShift + SessionDelta)` computed at call
time. -/
theorem claim_C5 (s : CState) (payload_target_ms now_ms : ℤ)
    (hvalid : now_ms - computeTargetMs s payload_target_ms ≤ STALE_START_THRESHOLD_MS) :
    ((scheduleStartAsync payload_target_ms now_ms s).current_run_state = "scheduled" ∨
      (scheduleStartAsync payload_target_ms now_ms s).current_run_state = "running") ∧
    (scheduleStartAsync payload_target_ms now_ms s).last_target_ms =
      some (payload_target_ms - (s.phase_shift_ms + s.session_phase_shift_delta_ms)) := by
  constructor
  · left
    simp only [scheduleStartAsync, if_neg (not_lt.mpr hvalid)]
  · simp only [scheduleStartAsync, if_neg (not_lt.mpr hvalid)]
    simp only [computeTargetMs, getEffectivePhaseShiftMs]

/-- Witness for C5: an on-time start (zero lag) on a fresh controller. -/
theorem claim_C5_witness :
    (100000000000 : ℤ) - computeTargetMs (initState 0 none) 100000000000 ≤
        STALE_START_THRESHOLD_MS ∧
      (scheduleStartAsync 100000000000 100000000000 (initState 0 none)).last_target_ms =
        some (100000000000 - (0 + 0)) :=
  ⟨by decide, (claim_C5 (initState 0 none) 100000000000 100000000000 (by decide)).2⟩

/-- Claim C4: after Stop, RunState is stopped, no play-loop or
scheduled-start task is active, both deltas are cleared, and — when the
session delta was non-zero — the phase shift absorbs the delta and the
result is persisted (state's stored value and a save call). -/
theorem claim_C4 (s : CState) :
    (stopAsync s).1.current_run_state = "stopped" ∧
    (stopAsync s).1.play_task = false ∧
    (stopAsync s).1.scheduled_start_task = none ∧
    (stopAsync s).1.session_phase_shift_delta_ms = 0 ∧
    (stopAsync s).1.pending_phase_shift_ms = 0 ∧
    (s.session_phase_shift_delta_ms ≠ 0 →
      (stopAsync s).1.phase_shift_ms =
          s.phase_shift_ms + s.session_phase_shift_delta_ms ∧
        (stopAsync s).1.store_phase_shift =
          some (s.phase_shift_ms + s.session_phase_shift_delta_ms) ∧
        Eff.save (s.phase_shift_ms + s.session_phase_shift_delta_ms) ∈ (stopAsync s).2) := by
  by_cases hd : s.session_phase_shift_delta_ms = 0
  · simp [stopAsync, commitSessionPhaseShift, hd]
  · simp [stopAsync, commitSessionPhaseShift, hd]

/-- Witness for C4 on a running state with session delta 150: the commit
branch fires. -/
theorem claim_C4_witness :
    exRunningState.session_phase_shift_delta_ms ≠ 0 ∧
      (stopAsync exRunningState).1.phase_shift_ms =
          exRunningState.phase_shift_ms + exRunningState.session_phase_shift_delta_ms ∧
        (stopAsync exRunningState).1.store_phase_shift =
          some (exRunningState.phase_shift_ms + exRunningState.session_phase_shift_delta_ms) ∧
        Eff.save (exRunningState.phase_shift_ms + exRunningState.session_phase_shift_delta_ms) ∈
          (stopAsync exRunningState).2 :=
  ⟨by decide, (claim_C4 exRunningState).2.2.2.2.2 (by decide)⟩

/-- Claim C6: a scheduled-start timer waking with a captured schedule id
different from the current one, or with the run flag cleared, changes
neither `last_actual_ms`, nor the run state, nor the play task; and Stop and
every valid ScheduleStart increment the schedule id, so a superseded timer
self-discards. -/
theorem claim_C6 :
    (∀ (p t : ℤ) (sid : ℕ) (now_ms : ℤ) (s : CState),
        sid ≠ s.current_schedule_id →
          (runScheduledStartWake p t sid now_ms s).1.last_actual_ms = s.last_actual_ms ∧
          (runScheduledStartWake p t sid now_ms s).1.current_run_state =
            s.current_run_state ∧
          (runScheduledStartWake p t sid now_ms s).1.play_task = s.play_task) ∧
    (∀ (p t : ℤ) (sid : ℕ) (now_ms : ℤ) (s : CState),
        s.current_run ≠ 1 →
          (runScheduledStartWake p t sid now_ms s).1.last_actual_ms = s.last_actual_ms ∧
          (runScheduledStartWake p t sid now_ms s).1.current_run_state =
            s.current_run_state ∧
          (runScheduledStartWake p t sid now_ms s).1.play_task = s.play_task) ∧
    (∀ s : CState,
        (stopAsync s).1.current_schedule_id = s.current_schedule_id + 1) ∧
    (∀ (s : CState) (p now_ms : ℤ),
        now_ms - computeTargetMs s p ≤ STALE_START_THRESHOLD_MS →
          (scheduleStartAsync p now_ms s).current_schedule_id =
            s.current_schedule_id + 1) := by
  refine ⟨?_, ?_, ?_, ?_⟩
  · intro p t sid now_ms s hsid
    have hsid' : sid ≠ (initActuator s).1.current_schedule_id := by
      by_cases hinit : s.initialized <;>
        simpa [initActuator, hinit] using hsid
    by_cases hinit : s.initialized <;>
      simp [runScheduledStartWake, initActuator, hinit,
        if_pos hsid'] <;>
      simp [initActuator, hinit] at hsid' <;>
      simp [hsid']
  · intro p t sid now_ms s hrun
    by_cases hinit : s.initialized <;>
      by_cases hsid : sid = (initActuator s).1.current_schedule_id <;>
      simp [runScheduledStartWake, initActuator, hinit, hsid] at hrun ⊢ <;>
      simp [hrun]
  · intro s
    by_cases hd : s.session_phase_shift_delta_ms = 0 <;>
      simp [stopAsync, commitSessionPhaseShift, hd]
  · intro s p now_ms hvalid
    simp only [scheduleStartAsync, if_neg (not_lt.mpr hvalid)]

/-- Witness for C6: a timer captured with id 1 waking after a Stop bumped
the id to 4 on the example running state. -/
theorem claim_C6_witness :
    (1 : ℕ) ≠ exRunningState.current_schedule_id ∧
      (runScheduledStartWake 100000000000 100000000000 1 100000000000
            exRunningState).1.play_task =
        exRunningState.play_task :=
  ⟨by decide,
    (claim_C6.1 100000000000 100000000000 1 100000000000 exRunningState (by decide)).2.2⟩

/-- Claim C10: Stop and Close call `stop_all` (and Close calls `close`) only
when the controller has initialized the actuator; with the actuator never
initialized, neither performs any actuator call. -/
theorem claim_C10 (s : CState) :
    (Eff.stopAll ∈ (stopAsync s).2 → s.initialized = true) ∧
    (Eff.stopAll ∈ (closeAsync s).2 → s.initialized = true) ∧
    (Eff.actClose ∈ (closeAsync s).2 → s.initialized = true) ∧
    (s.initialized = false →
      actuatorCalls (stopAsync s).2 = [] ∧ actuatorCalls (closeAsync s).2 = []) := by
  by_cases hinit : s.initialized <;>
    by_cases hd : s.session_phase_shift_delta_ms = 0 <;>
    simp [stopAsync, closeAsync, commitSessionPhaseShift, actuatorCalls, hinit, hd]

/-- Witness for C10 on a never-initialized controller with a staged delta:
no actuator calls at all from Stop or Close. -/
theorem claim_C10_witness :
    ({ exRunningState with initialized := false } : CState).initialized = false ∧
      actuatorCalls (stopAsync { exRunningState with initialized := false }).2 = [] ∧
      actuatorCalls (closeAsync { exRunningState with initialized := false }).2 = [] :=
  ⟨by decide, (claim_C10 { exRunningState with initialized := false }).2.2.2 (by decide)⟩

/-- Effective phase shift of the state a successful phase-shift command
returns, `none` on a rejected command. -/
def exceptEffective (r : Except String (CState × List Eff)) : Option ℤ :=
  match r with
  | Except.ok (s1, _) => some (getEffectivePhaseShiftMs s1)
  | Except.error _ => none

theorem scheduleStart_effective (p now_ms : ℤ) (s : CState) :
    getEffectivePhaseShiftMs (scheduleStartAsync p now_ms s) =
      getEffectivePhaseShiftMs s := by
  unfold getEffectivePhaseShiftMs
  simp only [scheduleStartAsync]
  split <;> rfl

/-- Claim C2: the UI submit path clamps any entered value into
[−2000, 2000] and the controller then accepts it (no failure) and makes the
clamped value the effective phase shift. -/
theorem claim_C2 (entered now_ms : ℤ) (s : CState) :
    (-2000 : ℤ) ≤ clampPhaseShift entered ∧ clampPhaseShift entered ≤ 2000 ∧
    exceptEffective (applyPhaseShift entered now_ms s) =
      some (clampPhaseShift entered) := by
  have hlo : (-2000 : ℤ) ≤ clampPhaseShift entered := by
    unfold clampPhaseShift PHASE_SHIFT_MIN_MS PHASE_SHIFT_MAX_MS
    split_ifs <;> omega
  have hhi : clampPhaseShift entered ≤ 2000 := by
    unfold clampPhaseShift PHASE_SHIFT_MIN_MS PHASE_SHIFT_MAX_MS
    split_ifs <;> omega
  refine ⟨hlo, hhi, ?_⟩
  unfold applyPhaseShift
  generalize hv : clampPhaseShift entered = v at hlo hhi ⊢
  unfold setPhaseShiftAsync
  rw [if_neg (by unfold PHASE_SHIFT_MIN_MS PHASE_SHIFT_MAX_MS; omega)]
  by_cases hrun : s.play_task = true
  · rw [if_pos hrun]
    by_cases hdelta : v - (s.phase_shift_ms + s.session_phase_shift_delta_ms) = 0
    · rw [if_pos hdelta]
      simp only [exceptEffective, getEffectivePhaseShiftMs, Option.some.injEq]
      omega
    · rw [if_neg hdelta]
      simp only [exceptEffective, getEffectivePhaseShiftMs, Option.some.injEq]
      ring
  · rw [if_neg hrun]
    by_cases hsch : s.scheduled_start_task.isSome = true
    · rw [if_pos hsch]
      cases hlpt : s.last_payload_target_ms with
      | none =>
        simp only [exceptEffective, getEffectivePhaseShiftMs, Option.some.injEq]
        ring
      | some p =>
        simp only [exceptEffective]
        rw [scheduleStart_effective]
        simp only [getEffectivePhaseShiftMs, Option.some.injEq]
        ring
    · rw [if_neg hsch]
      simp only [exceptEffective, getEffectivePhaseShiftMs, Option.some.injEq]
      ring

/-- Counterexample to claim C1 as stated: a valid (fresh, non-stale)
ScheduleStart arriving while the play loop is active does NOT cancel the
play-loop task — `_schedule_start_async` only cancels the scheduled-start
task, and the play task survives the command. -/
theorem claim_C1_counterexample :
    (200000000000 : ℤ) - computeTargetMs exRunningState 200000000000 ≤
        STALE_START_THRESHOLD_MS ∧
      MIN_EPOCH_MS ≤ (200000000000 : ℤ) ∧
      exRunningState.play_task = true ∧
      (scheduleStartAsync 200000000000 200000000000 exRunningState).play_task = true := by
  refine ⟨by decide, by decide, rfl, ?_⟩
  have hcond : ¬ ((200000000000 : ℤ) - computeTargetMs exRunningState 200000000000 >
      STALE_START_THRESHOLD_MS) := by decide
  simp only [scheduleStartAsync, if_neg hcond]
  rfl

/-- Claim C1 as amended: a valid ScheduleStart increments the schedule id,
cancels any existing StartScheduler task (replacing it with the newly
spawned one carrying the new id), sets RunState to Scheduled and sets the
run flag — but it leaves the play-loop task exactly as it was (it does not
cancel an active BeatScheduler). -/
theorem claim_C1_amended (s : CState) (payload_target_ms now_ms : ℤ)
    (hp : MIN_EPOCH_MS ≤ payload_target_ms)
    (hvalid : now_ms - computeTargetMs s payload_target_ms ≤ STALE_START_THRESHOLD_MS) :
    (scheduleStartAsync payload_target_ms now_ms s).current_schedule_id =
        s.current_schedule_id + 1 ∧
      (scheduleStartAsync payload_target_ms now_ms s).scheduled_start_task =
        some (payload_target_ms, computeTargetMs s payload_target_ms,
          s.current_schedule_id + 1) ∧
      (scheduleStartAsync payload_target_ms now_ms s).current_run_state = "scheduled" ∧
      (scheduleStartAsync payload_target_ms now_ms s).current_run = 1 ∧
      (scheduleStartAsync payload_target_ms now_ms s).play_task = s.play_task := by
  have hcond : ¬ (now_ms - computeTargetMs s payload_target_ms > STALE_START_THRESHOLD_MS) :=
    not_lt.mpr hvalid
  refine ⟨?_, ?_, ?_, ?_, ?_⟩ <;> simp only [scheduleStartAsync, if_neg hcond]

/-- Witness for the amended C1 at the concrete running state and a valid
start payload. -/
theorem claim_C1_amended_witness :
    MIN_EPOCH_MS ≤ (200000000000 : ℤ) ∧
      (200000000000 : ℤ) - computeTargetMs exRunningState 200000000000 ≤
        STALE_START_THRESHOLD_MS ∧
      (scheduleStartAsync 200000000000 200000000000 exRunningState).play_task =
        exRunningState.play_task :=
  ⟨by decide, by decide,
    (claim_C1_amended exRunningState 200000000000 200000000000 (by decide)
        (by decide)).2.2.2.2⟩

/-- Claim C7: one beat-loop iteration with positive BPM consumes the pending
delta (clearing it, and pulling the tick baseline back by that many
milliseconds when non-zero), re-reads the BPM, issues exactly one play call,
advances the tick by the period `60/BPM` seconds, and — when the advanced
tick is not in the future — catches up by whole periods until it exceeds the
monotonic reading, without further plays; when the advanced tick is already
in the future it is kept as is. -/
theorem claim_C7 (s : CState) (next_tick now : ℚ) (hbpm : 0 < s.current_bpm) :
    (playLoopIter s next_tick now).1.pending_phase_shift_ms = 0 ∧
    (playLoopIter s next_tick now).1.current_bpm = s.current_bpm ∧
    (playLoopIter s next_tick now).2.2 =
      [Eff.play 0 100 (List.replicate MOTOR_LEN 20) (-1)] ∧
    now < (playLoopIter s next_tick now).2.1 ∧
    (∃ k : ℕ, (playLoopIter s next_tick now).2.1 =
      (if s.pending_phase_shift_ms ≠ 0 then
          next_tick - (s.pending_phase_shift_ms : ℚ) / 1000
        else next_tick) + 60 / (s.current_bpm : ℚ) +
        k * (60 / (s.current_bpm : ℚ))) ∧
    (now < (if s.pending_phase_shift_ms ≠ 0 then
          next_tick - (s.pending_phase_shift_ms : ℚ) / 1000
        else next_tick) + 60 / (s.current_bpm : ℚ) →
      (playLoopIter s next_tick now).2.1 =
        (if s.pending_phase_shift_ms ≠ 0 then
            next_tick - (s.pending_phase_shift_ms : ℚ) / 1000
          else next_tick) + 60 / (s.current_bpm : ℚ)) := by
  have hcast : (0 : ℚ) < (s.current_bpm : ℚ) := by exact_mod_cast hbpm
  have hint : (0 : ℚ) < 60 / (s.current_bpm : ℚ) := by positivity
  by_cases hshift : s.pending_phase_shift_ms = 0
  · simp only [playLoopIter, consumePendingPhaseShiftMs, hshift, ne_eq,
      not_true_eq_false, if_false, ite_self]
    by_cases hs : next_tick + 60 / (s.current_bpm : ℚ) - now > 0
    · simp only [if_pos hs]
      refine ⟨trivial, trivial, trivial, by linarith, ⟨0, by push_cast; ring⟩,
        fun _ => trivial⟩
    · simp only [if_neg hs]
      obtain ⟨hgt, k, hk⟩ :=
        catchUp_spec hint now (next_tick + 60 / (s.current_bpm : ℚ))
      refine ⟨trivial, trivial, trivial, hgt, ⟨k, by rw [hk]⟩,
        fun h => absurd h (by linarith)⟩
  · simp only [playLoopIter, consumePendingPhaseShiftMs, hshift, ne_eq,
      not_false_eq_true, if_true]
    by_cases hs : next_tick - (s.pending_phase_shift_ms : ℚ) / 1000 +
        60 / (s.current_bpm : ℚ) - now > 0
    · simp only [if_pos hs]
      refine ⟨trivial, trivial, trivial, by linarith, ⟨0, by push_cast; ring⟩,
        fun _ => trivial⟩
    · simp only [if_neg hs]
      obtain ⟨hgt, k, hk⟩ :=
        catchUp_spec hint now
          (next_tick - (s.pending_phase_shift_ms : ℚ) / 1000 + 60 / (s.current_bpm : ℚ))
      refine ⟨trivial, trivial, trivial, hgt, ⟨k, by rw [hk]⟩,
        fun h => absurd h (by linarith)⟩

/-- Witness for C7 on a fresh controller (BPM 120, no pending delta), tick 0
and monotonic reading 0: the returned tick lies beyond the reading. -/
theorem claim_C7_witness :
    0 < (initState 0 none).current_bpm ∧
      (0 : ℚ) < (playLoopIter (initState 0 none) 0 0).2.1 :=
  ⟨by decide, (claim_C7 (initState 0 none) 0 0 (by decide)).2.2.2.1⟩

/-- Claim C8: run-topic parsing — a stripped, lowercased payload among the
stop keywords parses to Stop; the decimal string of any integer T at or
above 10^11 parses to Start(T); the decimal string of any other integer
(apart from "0", which is itself a stop keyword) is an error; a non-integer
non-stop payload is an error; and the round trip with the publisher's stop
serialization holds: parsing str(0) yields Stop. -/
theorem claim_C8 :
    parseRunPayload (intToDec 0) = Except.ok RunAction.stop ∧
    (∀ payload : List Char, pyLower (pyStrip payload) ∈ stopTokens →
      parseRunPayload payload = Except.ok RunAction.stop) ∧
    (∀ T : ℤ, MIN_EPOCH_MS ≤ T →
      parseRunPayload (intToDec T) = Except.ok (RunAction.start T)) ∧
    (∀ T : ℤ, T < MIN_EPOCH_MS → T ≠ 0 →
      ∃ msg, parseRunPayload (intToDec T) = Except.error msg) ∧
    (∀ payload : List Char, pyLower (pyStrip payload) ∉ stopTokens →
      parseIntDec (pyStrip payload) = none →
      ∃ msg, parseRunPayload payload = Except.error msg) := by
  refine ⟨?_, ?_, ?_, ?_, ?_⟩
  · rfl
  · intro payload hmem
    simp only [parseRunPayload, if_pos hmem]
  · intro T hT
    have hT0 : T ≠ 0 := by
      unfold MIN_EPOCH_MS at hT
      intro h
      rw [h] at hT
      norm_num at hT
    have hstrip : pyStrip (intToDec T) = intToDec T :=
      pyStrip_eq_self fun c hc => (intToDec_chars hc).1
    have hlower : pyLower (intToDec T) = intToDec T :=
      pyLower_eq_self fun c hc => (intToDec_chars hc).2
    simp only [parseRunPayload, hstrip, hlower, intToDec_not_stop hT0,
      if_false, parseIntDec_intToDec]
    rw [if_neg (not_lt.mpr hT)]
  · intro T hT hT0
    have hstrip : pyStrip (intToDec T) = intToDec T :=
      pyStrip_eq_self fun c hc => (intToDec_chars hc).1
    have hlower : pyLower (intToDec T) = intToDec T :=
      pyLower_eq_self fun c hc => (intToDec_chars hc).2
    refine ⟨"invalid start timestamp (expected epoch-ms)", ?_⟩
    simp only [parseRunPayload, hstrip, hlower, intToDec_not_stop hT0,
      if_false, parseIntDec_intToDec]
    rw [if_pos hT]
  · intro payload hnot hnone
    refine ⟨"invalid run payload", ?_⟩
    simp only [parseRunPayload, hnot, if_false, hnone]

/-- Witness for C8: the smallest valid epoch-ms payload round-trips. -/
theorem claim_C8_witness :
    MIN_EPOCH_MS ≤ (100000000000 : ℤ) ∧
      parseRunPayload (intToDec 100000000000) =
        Except.ok (RunAction.start 100000000000) :=
  ⟨by decide, claim_C8.2.2.1 100000000000 (by decide)⟩

/-- Counterexample to claim C9 as stated: the code truncates the delay in
milliseconds (`int(delay_sec * 1000)`) instead of rounding it to the nearest
millisecond.  With delay 3/2000 s (1.5 ms) the code produces base + 1 while
the claimed formula produces base + 2. -/
theorem claim_C9_counterexample :
    (0 : ℚ) ≤ 3 / 2000 ∧
      resolveRunPayload 1 123 (some (3 / 2000)) = 1 ∧
      resolveRunPayloadSpec 1 123 (some (3 / 2000)) = 2 := by
  have hq : ((3 : ℚ) / 2000) * 1000 = 3 / 2 := by norm_num
  have hfl : ⌊(3 / 2 : ℚ)⌋ = 1 := by
    rw [Int.floor_eq_iff]
    norm_num
  have hrd : round ((3 : ℚ) / 2) = 2 := by
    rw [round_eq, show (3 / 2 + 1 / 2 : ℚ) = 2 by norm_num]
    norm_num
  refine ⟨by norm_num, ?_, ?_⟩
  · simp only [resolveRunPayload, pyTrunc, hq, if_neg (one_ne_zero),
      if_pos (by norm_num : (0 : ℚ) ≤ 3 / 2), hfl]
    decide
  · simp only [resolveRunPayloadSpec, hq, if_neg (one_ne_zero), hrd]
    decide

/-- Claim C9 as amended: the delayed-start payload is the current epoch time
floored to the second plus the delay in milliseconds truncated toward zero
(for a nonnegative delay, its floor), and with no delay the payload is the
current epoch-ms (a run value of 0 publishes 0). -/
theorem claim_C9_amended (now_ms : ℤ) (d : ℚ) (hd : 0 ≤ d) :
    resolveRunPayload 1 now_ms (some d) =
        Int.fdiv now_ms 1000 * 1000 + ⌊d * 1000⌋ ∧
      resolveRunPayload 1 now_ms none = now_ms ∧
      resolveRunPayload 0 now_ms (some d) = 0 := by
  refine ⟨?_, rfl, rfl⟩
  simp only [resolveRunPayload, pyTrunc, if_neg (one_ne_zero)]
  rw [if_pos (by positivity : (0 : ℚ) ≤ d * 1000)]

/-- Witness for the amended C9 with delay 1 s at epoch-ms 5500. -/
theorem claim_C9_amended_witness :
    (0 : ℚ) ≤ 1 ∧
      resolveRunPayload 1 5500 (some 1) =
        Int.fdiv 5500 1000 * 1000 + ⌊(1 : ℚ) * 1000⌋ :=
  ⟨by norm_num, (claim_C9_amended 5500 1 (by norm_num)).1⟩

end MyPyHaptics
